import Mathlib

/-!
Verification development for the Reliance GRN scheduler (src/app.py).

The file gives a shallow embedding of the synchronization layer of the
script: the retry wrapper, the existence guard for Drive folders and
files, the dedup ledger persistence, the header reconciliation and the
keyed row replacement against the Google Sheet, and the per unit control
flow of the two workflows. Remote collaborators (Gmail, Drive, Sheets)
are modelled as outcome parameters of type Except: an ok value is a
successful remote call, an error is a raised exception. Each definition
follows the corresponding Python function; the catch clauses of the
source are embedded as the match arms on the error case.
-/

/-- Log levels used by RelianceAutomation.log, including the custom
SUCCESS level from the source. -/
inductive LogLevel where
  | INFO
  | WARNING
  | ERROR
  | SUCCESS
deriving DecidableEq, Repr

/-- One entry of the in memory log buffer kept by RelianceAutomation.log. -/
structure LogEntry where
  level : LogLevel
  msg : String
deriving DecidableEq, Repr

/-- MAX_RETRIES constant of the source. -/
def MAX_RETRIES : Nat := 3

/-- RETRY_WAIT constant of the source; the sleep has no observable
effect in the embedding. -/
def RETRY_WAIT : Nat := 2

/-- Loop body of retry_wrapper. The wrapped operation is a function from
the attempt number to an outcome; the list argument is the list of
attempt numbers still to run, which retry_wrapper instantiates with the
range 1..MAX_RETRIES. Returns the propagated outcome, the log entries
emitted by the wrapper, and the list of attempts actually performed.
Faithful to the source: every failed attempt, the final one included,
logs a WARNING with the attempt number; the final failure is re-raised
without any ERROR entry of the wrapper itself. -/
def retryGo {α : Type} (f : Nat → Except String α) (maxR : Nat) :
    List Nat → Except String α × List LogEntry × List Nat
  | [] => (Except.error "no attempts", [], [])
  | a :: rest =>
    match f a with
    | Except.ok v => (Except.ok v, [], [a])
    | Except.error e =>
      if a < maxR then
        ((retryGo f maxR rest).1,
          LogEntry.mk LogLevel.WARNING (("Attempt " ++ toString a ++ " failed: ") ++ e)
            :: (retryGo f maxR rest).2.1,
          a :: (retryGo f maxR rest).2.2)
      else
        (Except.error e,
          [LogEntry.mk LogLevel.WARNING (("Attempt " ++ toString a ++ " failed: ") ++ e)],
          [a])

/-- Embedding of RelianceAutomation.retry_wrapper. -/
def retry_wrapper {α : Type} (f : Nat → Except String α) :
    Except String α × List LogEntry × List Nat :=
  retryGo f MAX_RETRIES (List.range' 1 MAX_RETRIES)

/-- Loop body of the inlined retry in _append_to_google_sheet, which has
its own local max_retries of 3 and its own logging policy: a WARNING on
each failed non final attempt, an ERROR on the final failed attempt, and
a return of False instead of a raise. -/
def appendGo (outcome : Nat → Except String Nat) (maxR : Nat) :
    List Nat → Bool × List LogEntry × List Nat
  | [] => (false, [], [])
  | a :: rest =>
    match outcome a with
    | Except.ok cells =>
      (true,
        [LogEntry.mk LogLevel.INFO ("Appended " ++ toString cells ++ " cells to Google Sheet")],
        [a])
    | Except.error e =>
      if a < maxR then
        ((appendGo outcome maxR rest).1,
          LogEntry.mk LogLevel.WARNING
              (("Failed to append to Google Sheet (attempt " ++ toString a ++ "/"
                ++ toString maxR ++ "): ") ++ e)
            :: (appendGo outcome maxR rest).2.1,
          a :: (appendGo outcome maxR rest).2.2)
      else
        (false,
          [LogEntry.mk LogLevel.ERROR
            (("Failed to append to Google Sheet after " ++ toString maxR ++ " attempts: ") ++ e)],
          [a])

/-- Embedding of RelianceAutomation._append_to_google_sheet. The outcome
parameter gives the result of the remote append call on each attempt. -/
def append_to_google_sheet (outcome : Nat → Except String Nat) :
    Bool × List LogEntry × List Nat :=
  appendGo outcome 3 (List.range' 1 3)

/-- Embedding of RelianceAutomation.search_emails: the Gmail list call is
run through retry_wrapper; when the retries are exhausted the exception
is caught, an ERROR is logged and the empty list is returned. -/
def search_emails (outcome : Nat → Except String (List String)) :
    List String × List LogEntry :=
  match retry_wrapper outcome with
  | (Except.ok msgs, logs, _) => (msgs, logs)
  | (Except.error e, logs, _) =>
    ([], logs ++ [LogEntry.mk LogLevel.ERROR ("Email search failed: " ++ e)])

/-- Result record of a workflow, the success flag and processed count of
the dictionary returned by the workflow methods. -/
structure WorkflowResult where
  success : Bool
  processed : Nat
deriving DecidableEq, Repr

/-- Embedding of the enumeration head of process_gmail_workflow: the
email search result decides between the early return for an empty list,
which reports success with zero processed, and the continuation that
processes the found emails. The continuation parameter abstracts the
remainder of the method. -/
def process_gmail_workflow_enum (outcome : Nat → Except String (List String))
    (rest : List String → WorkflowResult) : WorkflowResult :=
  let emails := (search_emails outcome).1
  if emails.isEmpty then { success := true, processed := 0 } else rest emails

/-- Embedding of RelianceAutomation._list_drive_files: the Drive list
call is not retried; an exception is caught, an ERROR is logged and the
empty list is returned. -/
def list_drive_files (outcome : Except String (List String)) :
    List String × List LogEntry :=
  match outcome with
  | Except.ok files => (files, [])
  | Except.error e => ([], [LogEntry.mk LogLevel.ERROR ("Failed to list files: " ++ e)])

/-- Embedding of the enumeration head of process_pdf_workflow: an empty
file list, after the skip filter and the max_files slice which both
preserve emptiness, takes the early return reporting success with zero
processed; a non empty list goes to the continuation abstracting the per
file loop. -/
def process_pdf_workflow_enum (outcome : Except String (List String))
    (rest : List String → WorkflowResult) : WorkflowResult :=
  let pdf_files := (list_drive_files outcome).1
  if pdf_files.isEmpty then { success := true, processed := 0 } else rest pdf_files

/-- Embedding of RelianceAutomation._file_exists_in_folder. The outcome
parameter is the result of the Drive list query by name and parent; the
bare except of the source returns False on any query failure. -/
def file_exists_in_folder (queryOutcome : Except String (List String)) : Bool :=
  match queryOutcome with
  | Except.ok files => decide (0 < files.length)
  | Except.error _ => false

/-- Embedding of the upload guard at the file level in
_extract_attachments_from_email: the upload proceeds exactly when
_file_exists_in_folder returned False. -/
def uploadProceeds (queryOutcome : Except String (List String)) : Bool :=
  ! file_exists_in_folder queryOutcome

/-- Embedding of RelianceAutomation._create_drive_folder. The first
outcome is the existence query by name and parent, the second the create
call. Returns the folder id together with a flag telling whether the
create call was attempted. Any exception is caught at function level and
yields the empty string sentinel. -/
def create_drive_folder (listOutcome : Except String (List String))
    (createOutcome : Except String String) : String × Bool :=
  match listOutcome with
  | Except.error _ => ("", false)
  | Except.ok files =>
    match files with
    | f :: _ => (f, false)
    | [] =>
      match createOutcome with
      | Except.ok newId => (newId, true)
      | Except.error _ => ("", true)

/-- Embedding of the base folder check in process_gmail_workflow: an
empty base folder id makes the whole Gmail workflow return failure,
otherwise processing continues. -/
def gmailBaseFolderResult (folderId : String) (rest : WorkflowResult) : WorkflowResult :=
  if folderId = "" then { success := false, processed := 0 } else rest

/-- Embedding of RelianceAutomation._save_processed_state. The outcome
parameter is the result of the file write; the source catches any write
failure, logs it at ERROR and returns normally, so the caller visible
outcome is always ok. -/
def save_processed_state (writeOutcome : Except String Unit) :
    Except String Unit × List LogEntry :=
  match writeOutcome with
  | Except.ok _ => (Except.ok (), [])
  | Except.error e =>
    (Except.ok (), [LogEntry.mk LogLevel.ERROR ("Could not save processed state: " ++ e)])

/-- Model of the json serialization written by _save_processed_state. -/
def serialize_processed_state (emails pdfs : List String) : String :=
  ("\x7b\"emails\": " ++ toString emails ++ ", \"pdfs\": " ++ toString pdfs) ++ "\x7d"

/-- Model of the sequence of file contents of processed_state.json
during one call of _save_processed_state. The source opens the file in
mode w, which truncates it in place, and then writes the serialized
state into it, so the observable contents are the old contents, then the
empty truncated file, then the fully written new contents. -/
def fileStatesDuringSave (oldContent newContent : String) : List String :=
  [oldContent, "", newContent]

/-- Rows of the tabular sink are lists of cell strings. -/
abbrev Row := List String

/-- A record produced by extraction, a Python dict embedded as an
association list that preserves the insertion order of the keys. -/
abbrev RowRec := List (String × String)

/-- Key list of a record, in insertion order, as row.keys() yields it. -/
def recKeys (r : RowRec) : List String := r.map Prod.fst

/-- Python dict lookup with the empty string default, as row.get(h, "")
in _save_to_sheets. -/
def recGet (r : RowRec) (k : String) : String :=
  match r.find? (fun p => decide (p.1 = k)) with
  | some p => p.2
  | none => ""

/-- Concatenated key lists of a batch of records, the multiset of field
names underlying the set union in _save_to_sheets. -/
def fieldPool (rows : List RowRec) : List String := (rows.map recKeys).flatten

/-- The header extension loop of _save_to_sheets: all_headers starts as
a copy of the existing headers and every new header not already present
is appended at the end. -/
def addNewHeaders (cur : List String) : List String → List String
  | [] => cur
  | h :: t => if h ∈ cur then addNewHeaders cur t else addNewHeaders (cur ++ [h]) t

/-- A set order is a model of the iteration order of a Python set built
from a list of elements: the function that the expression
list(set().union(...)) applies to the concatenated field names. -/
def SetOrder : Type := List String → List String

/-- Admissibility of a set order model: the produced list enumerates the
set of elements of the input exactly once. Python guarantees nothing
more about the iteration order of a set; within one interpreter process
the order is a fixed function of the element set, which the embedding
captures by quantifying over one fixed admissible order per process. -/
def SetOrderSpec (ord : SetOrder) : Prop :=
  ∀ l : List String, (ord l).Nodup ∧ ∀ a : String, a ∈ ord l ↔ a ∈ l

/-- First seen order: keeps the first occurrence of every element. This
is one admissible set order, the one the spec text suggests. -/
def firstSeen : List String → List String := addNewHeaders []

/-- Reversed first seen order: another admissible set order, used to
exhibit that an admissible order need not be the first seen order. -/
def revOrder : SetOrder := fun l => (firstSeen l).reverse

/-- Embedding of the header reconciliation of _save_to_sheets, lines
737-753 of the source: computes the final header list and whether a
header row overwrite is issued. With existing headers present, the new
headers are appended and the overwrite happens exactly when the list
grew; with no existing headers the new headers are written
unconditionally. -/
def reconcileHeaders (ord : SetOrder) (existingHeaders : List String) (rows : List RowRec) :
    List String × Bool :=
  let newHeaders := ord (fieldPool rows)
  if existingHeaders.isEmpty then
    (newHeaders, true)
  else
    (addNewHeaders existingHeaders newHeaders,
      decide (existingHeaders.length < (addNewHeaders existingHeaders newHeaders).length))

/-- One deleteDimension request of the Sheets batchUpdate call. -/
structure DeleteReq where
  sheetId : Nat
  startIndex : Nat
  endIndex : Nat
deriving DecidableEq, Repr

/-- Remote side effects issued against the tabular sink. -/
inductive Effect where
  | updateHeaders (hs : List String)
  | deleteBatch (reqs : List DeleteReq)
  | appendCall (rows : List Row)
deriving DecidableEq, Repr

/-- Outcomes of the remote Sheets calls consumed by one save: the header
read, the header update, the full data read, the batch delete, and the
append outcome per attempt. -/
structure SheetsEnv where
  headerRead : Except String (List Row)
  updateOutcome : Except String Unit
  dataRead : Except String (List Row)
  deleteOutcome : Except String Unit
  appendOutcome : Nat → Except String Nat
  sheetId : Nat

/-- Embedding of RelianceAutomation._get_sheet_headers: the first row of
the range read, the empty list when the read returned nothing, and also
the empty list when the read raised, since the source catches the
exception. -/
def get_sheet_headers (env : SheetsEnv) : List String :=
  match env.headerRead with
  | Except.ok values => values.headD []
  | Except.error _ => []

/-- Embedding of RelianceAutomation._get_sheet_data: the full sheet
body, and the empty list when the read raised, since the source catches
the exception and returns the empty list. -/
def get_sheet_data (env : SheetsEnv) : List Row :=
  match env.dataRead with
  | Except.ok values => values
  | Except.error _ => []

/-- Embedding of RelianceAutomation._update_headers: issues the header
row overwrite; a failure is caught, logged at ERROR, and reported as a
False return value which the caller ignores. -/
def update_headers (env : SheetsEnv) (headers : List String) : Bool × List LogEntry :=
  match env.updateOutcome with
  | Except.ok _ =>
    (true, [LogEntry.mk LogLevel.INFO
      ("Updated headers with " ++ toString headers.length ++ " columns")])
  | Except.error e =>
    (false, [LogEntry.mk LogLevel.ERROR ("Failed to update headers: " ++ e)])

/-- Predicate of the row matching loop in _replace_rows_for_file: the
row has a cell in the key column and that cell equals the file id. -/
def rowMatches (fileIdCol : Nat) (fid : String) (row : Row) : Bool :=
  decide (fileIdCol < row.length) && decide (row.getD fileIdCol "" = fid)

/-- Embedding of the rows_to_delete collection loop: enumerate the data
rows starting at spreadsheet row 2 and keep the positions of the rows
matching the file id. -/
def rows_to_delete (dataRows : List Row) (fileIdCol : Nat) (fid : String) : List Nat :=
  (List.enumFrom 2 dataRows).filterMap
    (fun p => if rowMatches fileIdCol fid p.2 then some p.1 else none)

/-- Ascending positions, offset by k, of the rows satisfying p; the
specification form of the rows_to_delete loop used in the proofs. -/
def posFrom (k : Nat) (p : Row → Bool) : List Row → List Nat
  | [] => []
  | r :: t => if p r then k :: posFrom (k + 1) p t else posFrom (k + 1) p t

/-- Descending insertion, the single step of the embedded
sort(reverse=True). -/
def insertDesc (x : Nat) : List Nat → List Nat
  | [] => [x]
  | y :: t => if y ≤ x then x :: y :: t else y :: insertDesc x t

/-- Embedding of list.sort(reverse=True): a descending sort. -/
def sortDesc : List Nat → List Nat
  | [] => []
  | x :: t => insertDesc x (sortDesc t)

/-- Semantics of one deleteDimension request on the sheet body: remove
the row at the given zero based position. -/
def deleteRowAt (l : List Row) (i : Nat) : List Row := l.take i ++ l.drop (i + 1)

/-- Semantics of a batchUpdate of deleteDimension requests: the
deletions are applied sequentially in the issued order. -/
def applyDeletes (l : List Row) (idxs : List Nat) : List Row := idxs.foldl deleteRowAt l

/-- The zero based start indexes of the delete requests that
_replace_rows_for_file issues, in issued order: the matching positions
sorted descending, each shifted by one because the spreadsheet rows are
counted from 1. -/
def issuedDeleteStarts (dataRows : List Row) (fileIdCol : Nat) (fid : String) : List Nat :=
  (sortDesc (rows_to_delete dataRows fileIdCol fid)).map (fun i => i - 1)

/-- Embedding of RelianceAutomation._replace_rows_for_file. Returns the
bool result of the source together with the list of remote effects
issued and the log entries. An empty body read, which also covers a
failed read since _get_sheet_data swallows the failure, goes directly to
the append; a missing key column goes to the append; a failing batch
delete is caught, logged and reported as False with no append issued. -/
def replace_rows_for_file (env : SheetsEnv) (fid : String) (newRows : List Row) :
    Bool × List Effect × List LogEntry :=
  let values := get_sheet_data env
  if values.isEmpty then
    ((append_to_google_sheet env.appendOutcome).1,
      [Effect.appendCall newRows],
      (append_to_google_sheet env.appendOutcome).2.1)
  else
    match (values.headD []).indexOf? "drive_file_id" with
    | none =>
      ((append_to_google_sheet env.appendOutcome).1,
        [Effect.appendCall newRows],
        LogEntry.mk LogLevel.INFO "No drive_file_id column found, appending new rows"
          :: (append_to_google_sheet env.appendOutcome).2.1)
    | some fileIdCol =>
      let dels := rows_to_delete values.tail fileIdCol fid
      if dels.isEmpty then
        ((append_to_google_sheet env.appendOutcome).1,
          [Effect.appendCall newRows],
          (append_to_google_sheet env.appendOutcome).2.1)
      else
        let reqs := (sortDesc dels).map (fun i => DeleteReq.mk env.sheetId (i - 1) i)
        match env.deleteOutcome with
        | Except.error e =>
          (false, [Effect.deleteBatch reqs],
            [LogEntry.mk LogLevel.ERROR ("Failed to replace rows: " ++ e)])
        | Except.ok _ =>
          ((append_to_google_sheet env.appendOutcome).1,
            [Effect.deleteBatch reqs, Effect.appendCall newRows],
            LogEntry.mk LogLevel.INFO ("Deleted existing rows for file " ++ fid)
              :: (append_to_google_sheet env.appendOutcome).2.1)

/-- Embedding of RelianceAutomation._save_to_sheets. The whole body of
the source is wrapped in a try whose except only logs, and every inner
helper already catches its own exceptions, so the embedding always
returns normally with the effects issued and the logs emitted. -/
def save_to_sheets (env : SheetsEnv) (ord : SetOrder) (rows : List RowRec) (fid : String) :
    List Effect × List LogEntry :=
  if rows.isEmpty then ([], [])
  else
    let existing := get_sheet_headers env
    let recon := reconcileHeaders ord existing rows
    let headerEffects := if recon.2 then [Effect.updateHeaders recon.1] else []
    let headerLogs := if recon.2 then (update_headers env recon.1).2 else []
    let values := rows.map (fun row => recon.1.map (fun h => recGet row h))
    let rep := replace_rows_for_file env fid values
    (headerEffects ++ rep.2.1, headerLogs ++ rep.2.2)

/-- Observable outcome of processing one PDF file in the loop of
process_pdf_workflow: the ledger after the step, the deltas applied to
the statistics counters, whether the ledger file was rewritten, and the
sheet effects issued. -/
structure PdfStepResult where
  ledger : List String
  processedDelta : Nat
  failedDelta : Nat
  rowsAddedDelta : Nat
  ledgerSaved : Bool
  effects : List Effect
deriving DecidableEq, Repr

/-- Embedding of the per file body of process_pdf_workflow, lines
607-641 of the source, for a file id not yet in the ledger. The download
outcome collapses a raised exception to the empty byte string because
_download_from_drive catches it; an empty download is counted failed. An
extraction failure raises into the per file except and is counted
failed. A non empty row list is saved through _save_to_sheets, whose
return value carries no failure information, after which the file id is
added to the ledger and the state is persisted unconditionally. -/
def process_pdf_file_step (env : SheetsEnv) (ord : SetOrder)
    (download : Except String String) (extractOutcome : Except String (List RowRec))
    (ledger : List String) (fid : String) : PdfStepResult :=
  let pdfData := match download with
    | Except.ok d => d
    | Except.error _ => ""
  if pdfData = "" then
    { ledger := ledger, processedDelta := 0, failedDelta := 1, rowsAddedDelta := 0,
      ledgerSaved := false, effects := [] }
  else
    match extractOutcome with
    | Except.error _ =>
      { ledger := ledger, processedDelta := 0, failedDelta := 1, rowsAddedDelta := 0,
        ledgerSaved := false, effects := [] }
    | Except.ok rows =>
      if rows.isEmpty then
        { ledger := ledger, processedDelta := 0, failedDelta := 0, rowsAddedDelta := 0,
          ledgerSaved := false, effects := [] }
      else
        { ledger := ledger ++ [fid], processedDelta := 1, failedDelta := 0,
          rowsAddedDelta := rows.length, ledgerSaved := true,
          effects := (save_to_sheets env ord rows fid).1 }

/-- Model of the header window that _get_sheet_headers reads: the range
A1:Z1 covers exactly the first 26 columns of the header row, so the
headers visible to reconciliation are the first 26 entries. -/
def headersVisibleToReconciliation (fullHeaderRow : List String) : List String :=
  fullHeaderRow.take 26

/-- Code point of the end column letter computed by _update_headers as
chr(64 + len(headers)). -/
def update_headers_end_col_code (n : Nat) : Nat := 64 + n

/-- A code point denotes a single column letter exactly when it is
between the code of A and the code of Z. -/
def isColumnLetterCode (c : Nat) : Bool := decide (65 ≤ c) && decide (c ≤ 90)

/-- Example batch of two records with disjoint single fields. -/
def demoRows : List RowRec := [[("a", "1")], [("b", "2")]]

/-- Example record batch carrying the drive_file_id field of file F1. -/
def rows0 : List RowRec := [[("drive_file_id", "F1")]]

/-- Example header row of 27 distinct column names, one more than the
A1:Z1 window covers. -/
def hs27 : List String := (List.range 27).map (fun i => toString i)

/-- Sheets environment where the batch delete of the keyed replace
fails and every other remote call succeeds; the sheet holds a header row
with the key column and one stale row for file F1. -/
def envDeleteFails : SheetsEnv :=
  { headerRead := Except.ok [["drive_file_id"]]
    updateOutcome := Except.ok ()
    dataRead := Except.ok [["drive_file_id"], ["F1"]]
    deleteOutcome := Except.error "delete failed"
    appendOutcome := fun _ => Except.ok 1
    sheetId := 0 }

/-- Sheets environment where reading the sheet body fails and every
other remote call succeeds. -/
def envReadFails : SheetsEnv :=
  { headerRead := Except.ok [["drive_file_id"]]
    updateOutcome := Except.ok ()
    dataRead := Except.error "read failed"
    deleteOutcome := Except.ok ()
    appendOutcome := fun _ => Except.ok 4
    sheetId := 0 }

/-- An operation failing on every attempt. -/
def alwaysFail : Nat → Except String Unit := fun _ => Except.error "boom"

/-- A Gmail search failing on every attempt. -/
def failingSearch : Nat → Except String (List String) := fun _ => Except.error "api down"


theorem rows_to_delete_eq_posFrom (dataRows : List Row) (col : Nat) (fid : String) :
    rows_to_delete dataRows col fid = posFrom 2 (rowMatches col fid) dataRows := by
  have key : ∀ (l : List Row) (k : Nat),
      (List.enumFrom k l).filterMap
        (fun q => if rowMatches col fid q.2 then some q.1 else none) =
      posFrom k (rowMatches col fid) l := by
    intro l
    induction l with
    | nil => intro k; rfl
    | cons x t ih =>
      intro k
      by_cases hx : rowMatches col fid x
      · simp [List.enumFrom, posFrom, hx, ih]
      · simp [List.enumFrom, posFrom, hx, ih]
  exact key dataRows 2

theorem posFrom_succ (p : Row → Bool) (l : List Row) :
    ∀ k : Nat, posFrom (k + 1) p l = (posFrom k p l).map (fun i => i + 1) := by
  induction l with
  | nil => intro k; rfl
  | cons x t ih =>
    intro k
    by_cases hx : p x
    · simp [posFrom, hx, ih (k + 1)]
    · simp [posFrom, hx, ih (k + 1)]

theorem posFrom_ge (p : Row → Bool) (l : List Row) :
    ∀ k : Nat, ∀ i ∈ posFrom k p l, k ≤ i := by
  induction l with
  | nil => intro k i hi; simp [posFrom] at hi
  | cons x t ih =>
    intro k i hi
    by_cases hx : p x
    · simp [posFrom, hx] at hi
      rcases hi with rfl | hi
      · exact Nat.le_refl _
      · exact Nat.le_of_succ_le (ih (k + 1) i hi)
    · simp [posFrom, hx] at hi
      exact Nat.le_of_succ_le (ih (k + 1) i hi)

theorem posFrom_pairwise (p : Row → Bool) (l : List Row) :
    ∀ k : Nat, (posFrom k p l).Pairwise (fun a b => a < b) := by
  induction l with
  | nil => intro k; simp [posFrom]
  | cons x t ih =>
    intro k
    by_cases hx : p x
    · simp only [posFrom, hx, if_true]
      refine List.Pairwise.cons ?_ (ih (k + 1))
      intro b hb
      exact Nat.lt_of_lt_of_le (Nat.lt_succ_self k) (posFrom_ge p t (k + 1) b hb)
    · simp only [posFrom, hx, if_false]
      exact ih (k + 1)

theorem insertDesc_of_lt (x : Nat) (l : List Nat) (h : ∀ y ∈ l, x < y) :
    insertDesc x l = l ++ [x] := by
  induction l with
  | nil => rfl
  | cons y t ih =>
    have hy : x < y := h y (List.mem_cons_self y t)
    have hyx : ¬ (y ≤ x) := Nat.not_le.mpr hy
    simp [insertDesc, hyx, ih (fun z hz => h z (List.mem_cons_of_mem y hz))]

theorem sortDesc_of_pairwise (l : List Nat) (h : l.Pairwise (fun a b => a < b)) :
    sortDesc l = l.reverse := by
  induction l with
  | nil => rfl
  | cons x t ih =>
    rw [List.pairwise_cons] at h
    have hstep : sortDesc (x :: t) = insertDesc x (sortDesc t) := rfl
    rw [hstep, ih h.2,
      insertDesc_of_lt x t.reverse (fun y hy => h.1 y (List.mem_reverse.mp hy)),
      List.reverse_cons]

theorem deleteRowAt_zero (x : Row) (xs : List Row) : deleteRowAt (x :: xs) 0 = xs := by
  simp [deleteRowAt]

theorem deleteRowAt_succ (x : Row) (xs : List Row) (i : Nat) :
    deleteRowAt (x :: xs) (i + 1) = x :: deleteRowAt xs i := by
  simp [deleteRowAt, List.take_succ_cons, List.drop_succ_cons]

theorem applyDeletes_append (l : List Row) (a b : List Nat) :
    applyDeletes l (a ++ b) = applyDeletes (applyDeletes l a) b := by
  simp [applyDeletes, List.foldl_append]

theorem applyDeletes_map_succ (x : Row) (idxs : List Nat) :
    ∀ xs : List Row,
      applyDeletes (x :: xs) (idxs.map (fun i => i + 1)) = x :: applyDeletes xs idxs := by
  induction idxs with
  | nil => intro xs; rfl
  | cons i is ih =>
    intro xs
    have hL : applyDeletes (x :: xs) ((i + 1) :: is.map (fun j => j + 1)) =
        applyDeletes (deleteRowAt (x :: xs) (i + 1)) (is.map (fun j => j + 1)) := rfl
    rw [List.map_cons, hL, deleteRowAt_succ, ih (deleteRowAt xs i)]
    rfl

theorem applyDeletes_reverse_posFrom (p : Row → Bool) :
    ∀ l : List Row, applyDeletes l (posFrom 0 p l).reverse = l.filter (fun r => ! p r) := by
  intro l
  induction l with
  | nil => rfl
  | cons x xs ih =>
    by_cases hx : p x
    · have h0 : posFrom 0 p (x :: xs) = 0 :: (posFrom 0 p xs).map (fun i => i + 1) := by
        simp [posFrom, hx, posFrom_succ]
      rw [h0, List.reverse_cons, ← List.map_reverse, applyDeletes_append,
        applyDeletes_map_succ, ih]
      have hdel : applyDeletes (x :: xs.filter (fun r => ! p r)) [0] =
          xs.filter (fun r => ! p r) := deleteRowAt_zero _ _
      rw [hdel, List.filter_cons]
      simp [hx]
    · have h0 : posFrom 0 p (x :: xs) = (posFrom 0 p xs).map (fun i => i + 1) := by
        simp [posFrom, hx, posFrom_succ]
      rw [h0, ← List.map_reverse, applyDeletes_map_succ, ih, List.filter_cons]
      simp [hx]

theorem map_succ_sub_one (L : List Nat) :
    ((L.map (fun i => i + 1)).map (fun i => i - 1)) = L := by
  induction L with
  | nil => rfl
  | cons a t ih => simp [ih]

theorem addNewHeaders_extends (ns : List String) :
    ∀ cur : List String, ∃ t, addNewHeaders cur ns = cur ++ t := by
  induction ns with
  | nil => intro cur; exact ⟨[], by simp [addNewHeaders]⟩
  | cons h t ih =>
    intro cur
    by_cases hc : h ∈ cur
    · obtain ⟨t1, ht1⟩ := ih cur
      exact ⟨t1, by simp [addNewHeaders, hc, ht1]⟩
    · obtain ⟨t1, ht1⟩ := ih (cur ++ [h])
      refine ⟨[h] ++ t1, ?_⟩
      rw [addNewHeaders, if_neg hc, ht1, List.append_assoc]

theorem addNewHeaders_of_subset (ns : List String) :
    ∀ cur : List String, (∀ h ∈ ns, h ∈ cur) → addNewHeaders cur ns = cur := by
  induction ns with
  | nil => intro cur _; rfl
  | cons h t ih =>
    intro cur hsub
    have hc : h ∈ cur := hsub h (List.mem_cons_self h t)
    rw [addNewHeaders, if_pos hc]
    exact ih cur (fun z hz => hsub z (List.mem_cons_of_mem h hz))

theorem mem_addNewHeaders (ns : List String) :
    ∀ (cur : List String) (a : String), a ∈ addNewHeaders cur ns ↔ a ∈ cur ∨ a ∈ ns := by
  induction ns with
  | nil => intro cur a; simp [addNewHeaders]
  | cons h t ih =>
    intro cur a
    by_cases hc : h ∈ cur
    · rw [addNewHeaders, if_pos hc, ih cur a, List.mem_cons]
      constructor
      · rintro (h1 | h1)
        · exact Or.inl h1
        · exact Or.inr (Or.inr h1)
      · rintro (h1 | rfl | h1)
        · exact Or.inl h1
        · exact Or.inl hc
        · exact Or.inr h1
    · rw [addNewHeaders, if_neg hc, ih (cur ++ [h]) a]
      simp only [List.mem_append, List.mem_cons, List.not_mem_nil]
      tauto

theorem nodup_addNewHeaders (ns : List String) :
    ∀ cur : List String, cur.Nodup → (addNewHeaders cur ns).Nodup := by
  induction ns with
  | nil => intro cur h; exact h
  | cons h t ih =>
    intro cur hcur
    by_cases hc : h ∈ cur
    · rw [addNewHeaders, if_pos hc]
      exact ih cur hcur
    · rw [addNewHeaders, if_neg hc]
      refine ih (cur ++ [h]) ?_
      rw [List.nodup_append]
      refine ⟨hcur, List.nodup_singleton h, ?_⟩
      intro a ha hb
      rw [List.mem_singleton] at hb
      exact hc (hb ▸ ha)

theorem addNewHeaders_eq_filter (ns : List String) :
    ∀ cur : List String, ns.Nodup →
      addNewHeaders cur ns = cur ++ ns.filter (fun h => decide (h ∉ cur)) := by
  induction ns with
  | nil => intro cur _; simp [addNewHeaders]
  | cons h t ih =>
    intro cur hnd
    rw [List.nodup_cons] at hnd
    by_cases hc : h ∈ cur
    · rw [addNewHeaders, if_pos hc, ih cur hnd.2, List.filter_cons]
      simp [hc]
    · rw [addNewHeaders, if_neg hc, ih (cur ++ [h]) hnd.2, List.filter_cons]
      have hf : t.filter (fun x => decide (x ∉ cur ++ [h])) =
          t.filter (fun x => decide (x ∉ cur)) := by
        apply List.filter_congr
        intro x hx
        have hxh : x ≠ h := fun he => hnd.1 (he ▸ hx)
        simp [List.mem_append, hxh]
      rw [hf]
      simp [hc]

theorem firstSeen_spec : SetOrderSpec firstSeen := by
  intro l
  constructor
  · exact nodup_addNewHeaders l [] List.nodup_nil
  · intro a
    have : firstSeen l = addNewHeaders [] l := rfl
    rw [this, mem_addNewHeaders]
    simp

theorem revOrder_spec : SetOrderSpec revOrder := by
  intro l
  constructor
  · exact List.nodup_reverse.mpr (firstSeen_spec l).1
  · intro a
    have : revOrder l = (firstSeen l).reverse := rfl
    rw [this, List.mem_reverse]
    exact (firstSeen_spec l).2 a

theorem setOrder_perm (ord1 ord2 : SetOrder) (h1 : SetOrderSpec ord1)
    (h2 : SetOrderSpec ord2) (l : List String) : (ord1 l).Perm (ord2 l) := by
  rw [List.perm_ext_iff_of_nodup (h1 l).1 (h2 l).1]
  intro a
  rw [(h1 l).2 a, (h2 l).2 a]

theorem retry_wrapper_all_fail {α : Type} (f : Nat → Except String α) (e1 e2 e3 : String)
    (h1 : f 1 = Except.error e1) (h2 : f 2 = Except.error e2)
    (h3 : f 3 = Except.error e3) :
    retry_wrapper f = (Except.error e3,
      [LogEntry.mk LogLevel.WARNING (("Attempt " ++ toString (1 : Nat) ++ " failed: ") ++ e1),
       LogEntry.mk LogLevel.WARNING (("Attempt " ++ toString (2 : Nat) ++ " failed: ") ++ e2),
       LogEntry.mk LogLevel.WARNING (("Attempt " ++ toString (3 : Nat) ++ " failed: ") ++ e3)],
      [1, 2, 3]) := by
  have hr : List.range' 1 MAX_RETRIES = [1, 2, 3] := by decide
  rw [retry_wrapper, hr]
  simp [retryGo, h1, h2, h3, MAX_RETRIES]

theorem append_all_fail (outcome : Nat → Except String Nat) (e1 e2 e3 : String)
    (h1 : outcome 1 = Except.error e1) (h2 : outcome 2 = Except.error e2)
    (h3 : outcome 3 = Except.error e3) :
    append_to_google_sheet outcome = (false,
      [LogEntry.mk LogLevel.WARNING
        (("Failed to append to Google Sheet (attempt " ++ toString (1 : Nat) ++ "/"
          ++ toString (3 : Nat) ++ "): ") ++ e1),
       LogEntry.mk LogLevel.WARNING
        (("Failed to append to Google Sheet (attempt " ++ toString (2 : Nat) ++ "/"
          ++ toString (3 : Nat) ++ "): ") ++ e2),
       LogEntry.mk LogLevel.ERROR
        (("Failed to append to Google Sheet after " ++ toString (3 : Nat)
          ++ " attempts: ") ++ e3)],
      [1, 2, 3]) := by
  have hr : List.range' 1 3 = [1, 2, 3] := by decide
  rw [append_to_google_sheet, hr]
  simp [appendGo, h1, h2, h3]

/-- C1 counterexample: with every remote call succeeding except the
batch delete of the keyed replace, the keyed row replacement for file F1
fails, yet the per file step of process_pdf_workflow adds F1 to the
ledger, persists the ledger, counts the file processed and counts no
failure, because _save_to_sheets catches the failure internally. -/
theorem C1_counterexample :
    (replace_rows_for_file envDeleteFails "F1" [["F1"]]).1 = false ∧
    (process_pdf_file_step envDeleteFails firstSeen (Except.ok "pdf")
        (Except.ok rows0) [] "F1").ledger = ["F1"] ∧
    (process_pdf_file_step envDeleteFails firstSeen (Except.ok "pdf")
        (Except.ok rows0) [] "F1").ledgerSaved = true ∧
    (process_pdf_file_step envDeleteFails firstSeen (Except.ok "pdf")
        (Except.ok rows0) [] "F1").failedDelta = 0 ∧
    (process_pdf_file_step envDeleteFails firstSeen (Except.ok "pdf")
        (Except.ok rows0) [] "F1").processedDelta = 1 := by decide

/-- C1 amended: the identifier of a PDF is added to the ledger and the
ledger persisted as soon as extraction yields a nonempty row set,
regardless of the outcomes of the sheet side effects, because
_save_to_sheets catches every failure internally; only a failure raised
before the save, an empty or failed download or a failed extraction,
leaves the unit unmarked and counted as failed. -/
theorem C1_ledger_marking (env : SheetsEnv) (ord : SetOrder) (ledger : List String)
    (fid : String) :
    (∀ (e : String) (extractOutcome : Except String (List RowRec)),
      process_pdf_file_step env ord (Except.error e) extractOutcome ledger fid =
        { ledger := ledger, processedDelta := 0, failedDelta := 1, rowsAddedDelta := 0,
          ledgerSaved := false, effects := [] }) ∧
    (∀ d e, d ≠ "" →
      process_pdf_file_step env ord (Except.ok d) (Except.error e) ledger fid =
        { ledger := ledger, processedDelta := 0, failedDelta := 1, rowsAddedDelta := 0,
          ledgerSaved := false, effects := [] }) ∧
    (∀ d rows, d ≠ "" → rows ≠ ([] : List RowRec) →
      (process_pdf_file_step env ord (Except.ok d) (Except.ok rows) ledger fid).ledger
          = ledger ++ [fid] ∧
      (process_pdf_file_step env ord (Except.ok d) (Except.ok rows) ledger fid).ledgerSaved
          = true ∧
      (process_pdf_file_step env ord (Except.ok d) (Except.ok rows) ledger fid).processedDelta
          = 1 ∧
      (process_pdf_file_step env ord (Except.ok d) (Except.ok rows) ledger fid).failedDelta
          = 0) := by
  refine ⟨?_, ?_, ?_⟩
  · intro e extractOutcome
    simp [process_pdf_file_step]
  · intro d e hd
    simp [process_pdf_file_step, hd]
  · intro d rows hd hr
    have hre : rows.isEmpty = false := by
      cases rows with
      | nil => exact absurd rfl hr
      | cons a t => rfl
    simp [process_pdf_file_step, hd, hre]

/-- C1 amended witness, instantiated at the delete failure environment. -/
theorem C1_ledger_marking_witness :
    (process_pdf_file_step envDeleteFails firstSeen (Except.ok "pdf")
        (Except.ok rows0) [] "F1").ledger = [] ++ ["F1"] :=
  ((C1_ledger_marking envDeleteFails firstSeen [] "F1").2.2 "pdf" rows0
    (by decide) (by decide)).1

/-- C2 counterexample: when reading the sheet body fails, the replace is
not aborted: _get_sheet_data swallows the failure into an empty list,
the new rows are appended and the call is reported successful. -/
theorem C2_counterexample :
    (replace_rows_for_file envReadFails "F1" [["F1"]]).2.1 =
      [Effect.appendCall [["F1"]]] ∧
    (replace_rows_for_file envReadFails "F1" [["F1"]]).1 = true := by decide

/-- C2 amended: if deleting the matched rows fails, the replace for the
key is aborted, reported failed and no append is attempted; but a
failure reading the current sheet body is caught inside _get_sheet_data,
which returns the empty list, so the replace skips deletion and appends
the new rows as if the sheet were empty. -/
theorem C2_replace_failure_semantics :
    (∀ (env : SheetsEnv) (fid : String) (newRows : List Row) (e : String),
      env.dataRead = Except.error e →
      (replace_rows_for_file env fid newRows).2.1 = [Effect.appendCall newRows]) ∧
    (∀ (env : SheetsEnv) (fid : String) (newRows : List Row) (e : String)
        (values : List Row) (col : Nat),
      env.dataRead = Except.ok values →
      values.isEmpty = false →
      (values.headD []).indexOf? "drive_file_id" = some col →
      (rows_to_delete values.tail col fid).isEmpty = false →
      env.deleteOutcome = Except.error e →
      (replace_rows_for_file env fid newRows).1 = false ∧
      ∀ rs, Effect.appendCall rs ∉ (replace_rows_for_file env fid newRows).2.1) := by
  constructor
  · intro env fid newRows e he
    simp [replace_rows_for_file, get_sheet_data, he]
  · intro env fid newRows e values col hv hne hcol hdels hdel
    have hgd : get_sheet_data env = values := by simp [get_sheet_data, hv]
    have key : replace_rows_for_file env fid newRows =
        (false,
          [Effect.deleteBatch ((sortDesc (rows_to_delete values.tail col fid)).map
            (fun i => DeleteReq.mk env.sheetId (i - 1) i))],
          [LogEntry.mk LogLevel.ERROR ("Failed to replace rows: " ++ e)]) := by
      simp only [replace_rows_for_file, hgd, hne, hcol, hdels, hdel]
      simp
    rw [key]
    exact ⟨rfl, by intro rs; simp⟩

/-- C2 amended witness, first part at the read failure environment and
second part at the delete failure environment. -/
theorem C2_replace_failure_semantics_witness :
    (replace_rows_for_file envReadFails "F9" [["r"]]).2.1 = [Effect.appendCall [["r"]]] ∧
    (replace_rows_for_file envDeleteFails "F1" [["F1"]]).1 = false :=
  ⟨C2_replace_failure_semantics.1 envReadFails "F9" [["r"]] "read failed" rfl,
   (C2_replace_failure_semantics.2 envDeleteFails "F1" [["F1"]] "delete failed"
     [["drive_file_id"], ["F1"]] 0 rfl (by decide) (by decide) (by decide) rfl).1⟩

/-- C3 counterexample: a failed existence query before the upload makes
_file_exists_in_folder return False, and the upload guard proceeds as if
the file did not exist, instead of propagating the failure. -/
theorem C3_counterexample :
    file_exists_in_folder (Except.error "query failed") = false ∧
    uploadProceeds (Except.error "query failed") = true := by decide

/-- C3 amended: a failed existence query in _create_drive_folder makes
the function return the empty string sentinel without attempting the
create call, and the Gmail workflow treats an empty base folder id as a
failed run; but a failed file level query in _file_exists_in_folder
silently returns False, so the guard treats the failure as object does
not exist and the upload proceeds. -/
theorem C3_existence_guard_failures :
    (∀ e : String, file_exists_in_folder (Except.error e) = false ∧
      uploadProceeds (Except.error e) = true) ∧
    (∀ (e : String) (c : Except String String),
      create_drive_folder (Except.error e) c = ("", false)) ∧
    (∀ rest : WorkflowResult,
      gmailBaseFolderResult "" rest = { success := false, processed := 0 }) := by
  refine ⟨?_, ?_, ?_⟩
  · intro e
    exact ⟨rfl, rfl⟩
  · intro e c
    rfl
  · intro rest
    rfl

/-- C4: for every header reconciliation call whose batch carries at
least one field, as every call of _save_to_sheets does because each
record of _process_extracted_data carries the processed_date field, the
final header list is the existing header list extended at the end with
every existing column at its exact position, a batch introducing no
field outside the existing headers leaves the headers unchanged with no
overwrite issued, and an overwrite is issued exactly when the final
header list is strictly longer than the existing one. -/
theorem C4_header_reconciliation (ord : SetOrder) (ex : List String) (rows : List RowRec)
    (hord : SetOrderSpec ord) (hne : ∃ r ∈ rows, r ≠ ([] : RowRec)) :
    (∃ t, (reconcileHeaders ord ex rows).1 = ex ++ t) ∧
    ((∀ f ∈ fieldPool rows, f ∈ ex) → reconcileHeaders ord ex rows = (ex, false)) ∧
    ((reconcileHeaders ord ex rows).2 = true ↔
      ex.length < (reconcileHeaders ord ex rows).1.length) := by
  obtain ⟨r, hrmem, hrne⟩ := hne
  have hkeys : recKeys r ≠ [] := by
    intro h
    exact hrne (List.map_eq_nil_iff.mp h)
  obtain ⟨f0, hf0⟩ := List.exists_mem_of_ne_nil (recKeys r) hkeys
  have hf0pool : f0 ∈ fieldPool rows :=
    List.mem_flatten.mpr ⟨recKeys r, List.mem_map_of_mem recKeys hrmem, hf0⟩
  cases ex with
  | nil =>
    refine ⟨⟨ord (fieldPool rows), by simp [reconcileHeaders]⟩, ?_, ?_⟩
    · intro hsub
      exact absurd (hsub f0 hf0pool) (List.not_mem_nil f0)
    · have h1 : (reconcileHeaders ord [] rows).2 = true := by simp [reconcileHeaders]
      have h2 : (reconcileHeaders ord [] rows).1 = ord (fieldPool rows) := by
        simp [reconcileHeaders]
      rw [h1, h2]
      simp only [List.length_nil, true_iff]
      have hmem : f0 ∈ ord (fieldPool rows) := ((hord (fieldPool rows)).2 f0).mpr hf0pool
      exact List.length_pos.mpr (List.ne_nil_of_mem hmem)
  | cons e0 etl =>
    refine ⟨?_, ?_, ?_⟩
    · obtain ⟨t, ht⟩ := addNewHeaders_extends (ord (fieldPool rows)) (e0 :: etl)
      exact ⟨t, by simp [reconcileHeaders, ht]⟩
    · intro hsub
      have hsub2 : ∀ h ∈ ord (fieldPool rows), h ∈ e0 :: etl := by
        intro h hh
        exact hsub h (((hord (fieldPool rows)).2 h).mp hh)
      have heq := addNewHeaders_of_subset (ord (fieldPool rows)) (e0 :: etl) hsub2
      simp [reconcileHeaders, heq]
    · simp [reconcileHeaders]

/-- C4 witness at the batch of rows0 whose single field is already the
single existing header. -/
theorem C4_header_reconciliation_witness :
    reconcileHeaders firstSeen ["drive_file_id"] rows0 = (["drive_file_id"], false) :=
  (C4_header_reconciliation firstSeen ["drive_file_id"] rows0 firstSeen_spec
    ⟨[("drive_file_id", "F1")], by decide, by decide⟩).2.1 (by decide)

/-- C5: the delete positions computed by _replace_rows_for_file are the
strictly ascending match positions reversed, so the delete requests are
issued in strictly descending position order, highest first, and
applying the issued deletions sequentially to the sheet removes exactly
the rows matching the key, leaving the header row and every non matching
row in place with no index shift corruption. -/
theorem C5_deletion_order (dataRows : List Row) (col : Nat) (fid : String) (header : Row) :
    sortDesc (rows_to_delete dataRows col fid) = (rows_to_delete dataRows col fid).reverse ∧
    (sortDesc (rows_to_delete dataRows col fid)).Pairwise (fun a b => b < a) ∧
    applyDeletes (header :: dataRows) (issuedDeleteStarts dataRows col fid) =
      header :: dataRows.filter (fun r => ! rowMatches col fid r) := by
  have hpe := rows_to_delete_eq_posFrom dataRows col fid
  have hpw : (rows_to_delete dataRows col fid).Pairwise (fun a b => a < b) := by
    rw [hpe]
    exact posFrom_pairwise _ _ 2
  have hsort : sortDesc (rows_to_delete dataRows col fid) =
      (rows_to_delete dataRows col fid).reverse := sortDesc_of_pairwise _ hpw
  refine ⟨hsort, ?_, ?_⟩
  · rw [hsort, List.pairwise_reverse]
    exact hpw
  · simp only [issuedDeleteStarts]
    rw [hsort, hpe]
    have h2 : posFrom 2 (rowMatches col fid) dataRows =
        (posFrom 1 (rowMatches col fid) dataRows).map (fun i => i + 1) :=
      posFrom_succ _ _ 1
    have h1 : posFrom 1 (rowMatches col fid) dataRows =
        (posFrom 0 (rowMatches col fid) dataRows).map (fun i => i + 1) :=
      posFrom_succ _ _ 0
    rw [h2, ← List.map_reverse, map_succ_sub_one, h1, ← List.map_reverse,
      applyDeletes_map_succ, applyDeletes_reverse_posFrom]

/-- C6 counterexample: on an operation failing on every attempt,
retry_wrapper with budget 3 emits three WARNING entries, one per failed
attempt including the final one, not two, and emits no ERROR entry of
its own before re-raising. -/
theorem C6_counterexample :
    (retry_wrapper alwaysFail).2.1.countP
      (fun l => decide (l.level = LogLevel.WARNING)) = 3 ∧
    ¬ ((retry_wrapper alwaysFail).2.1.countP
      (fun l => decide (l.level = LogLevel.WARNING)) = 2) ∧
    (retry_wrapper alwaysFail).2.1.countP
      (fun l => decide (l.level = LogLevel.ERROR)) = 0 ∧
    (retry_wrapper alwaysFail).2.2 = [1, 2, 3] := by decide

/-- C6 amended: with attempt budget 3 and an operation failing on every
attempt, retry_wrapper performs exactly the attempts 1, 2 and 3, logs
one WARNING per failed attempt including the final one, three in total
each carrying its attempt number, and re-raises the final failure
without an ERROR entry of its own; the inlined retry of
_append_to_google_sheet performs three attempts, logs two WARNING
entries then one ERROR entry and returns failure. -/
theorem C6_retry_behaviour (f : Nat → Except String Unit)
    (outcome : Nat → Except String Nat) (e1 e2 e3 g1 g2 g3 : String)
    (hf1 : f 1 = Except.error e1) (hf2 : f 2 = Except.error e2)
    (hf3 : f 3 = Except.error e3)
    (ho1 : outcome 1 = Except.error g1) (ho2 : outcome 2 = Except.error g2)
    (ho3 : outcome 3 = Except.error g3) :
    retry_wrapper f = (Except.error e3,
      [LogEntry.mk LogLevel.WARNING (("Attempt " ++ toString (1 : Nat) ++ " failed: ") ++ e1),
       LogEntry.mk LogLevel.WARNING (("Attempt " ++ toString (2 : Nat) ++ " failed: ") ++ e2),
       LogEntry.mk LogLevel.WARNING (("Attempt " ++ toString (3 : Nat) ++ " failed: ") ++ e3)],
      [1, 2, 3]) ∧
    append_to_google_sheet outcome = (false,
      [LogEntry.mk LogLevel.WARNING
        (("Failed to append to Google Sheet (attempt " ++ toString (1 : Nat) ++ "/"
          ++ toString (3 : Nat) ++ "): ") ++ g1),
       LogEntry.mk LogLevel.WARNING
        (("Failed to append to Google Sheet (attempt " ++ toString (2 : Nat) ++ "/"
          ++ toString (3 : Nat) ++ "): ") ++ g2),
       LogEntry.mk LogLevel.ERROR
        (("Failed to append to Google Sheet after " ++ toString (3 : Nat)
          ++ " attempts: ") ++ g3)],
      [1, 2, 3]) :=
  ⟨retry_wrapper_all_fail f e1 e2 e3 hf1 hf2 hf3,
   append_all_fail outcome g1 g2 g3 ho1 ho2 ho3⟩

/-- C6 amended witness at the concrete always failing operations. -/
theorem C6_retry_behaviour_witness :
    retry_wrapper alwaysFail = (Except.error "boom",
      [LogEntry.mk LogLevel.WARNING (("Attempt " ++ toString (1 : Nat) ++ " failed: ") ++ "boom"),
       LogEntry.mk LogLevel.WARNING (("Attempt " ++ toString (2 : Nat) ++ " failed: ") ++ "boom"),
       LogEntry.mk LogLevel.WARNING (("Attempt " ++ toString (3 : Nat) ++ " failed: ") ++ "boom")],
      [1, 2, 3]) ∧
    append_to_google_sheet (fun _ => Except.error "x") = (false,
      [LogEntry.mk LogLevel.WARNING
        (("Failed to append to Google Sheet (attempt " ++ toString (1 : Nat) ++ "/"
          ++ toString (3 : Nat) ++ "): ") ++ "x"),
       LogEntry.mk LogLevel.WARNING
        (("Failed to append to Google Sheet (attempt " ++ toString (2 : Nat) ++ "/"
          ++ toString (3 : Nat) ++ "): ") ++ "x"),
       LogEntry.mk LogLevel.ERROR
        (("Failed to append to Google Sheet after " ++ toString (3 : Nat)
          ++ " attempts: ") ++ "x")],
      [1, 2, 3]) :=
  C6_retry_behaviour alwaysFail (fun _ => Except.error "x")
    "boom" "boom" "boom" "x" "x" "x" rfl rfl rfl rfl rfl rfl

/-- C7 counterexample: with the Gmail search failing on every attempt
and the Drive listing failing, both workflows report success with zero
processed units instead of failing the run, even when the continuation
for a non empty enumeration would have reported failure. -/
theorem C7_counterexample :
    process_gmail_workflow_enum failingSearch
      (fun _ => { success := false, processed := 99 }) =
      { success := true, processed := 0 } ∧
    process_pdf_workflow_enum (Except.error "api down")
      (fun _ => { success := false, processed := 99 }) =
      { success := true, processed := 0 } := by decide

/-- C7 amended: a Gmail enumeration failure surviving the three retry
attempts is logged at ERROR by search_emails, which returns the empty
list; a Drive listing failure is not retried at all, is logged at ERROR
and yields the empty list; in both cases the workflow treats the result
as an empty enumeration and reports the run successful with zero
processed units. -/
theorem C7_enumeration_failure (outcome : Nat → Except String (List String))
    (e1 e2 e3 eD : String)
    (h1 : outcome 1 = Except.error e1) (h2 : outcome 2 = Except.error e2)
    (h3 : outcome 3 = Except.error e3) :
    (search_emails outcome).1 = [] ∧
    (search_emails outcome).2.countP (fun l => decide (l.level = LogLevel.ERROR)) = 1 ∧
    (∀ rest, process_gmail_workflow_enum outcome rest =
      { success := true, processed := 0 }) ∧
    (list_drive_files (Except.error eD)).1 = [] ∧
    (list_drive_files (Except.error eD)).2.map LogEntry.level = [LogLevel.ERROR] ∧
    (∀ rest, process_pdf_workflow_enum (Except.error eD) rest =
      { success := true, processed := 0 }) := by
  have hrw := retry_wrapper_all_fail outcome e1 e2 e3 h1 h2 h3
  have hse : search_emails outcome =
      ([],
        [LogEntry.mk LogLevel.WARNING (("Attempt " ++ toString (1 : Nat) ++ " failed: ") ++ e1),
         LogEntry.mk LogLevel.WARNING (("Attempt " ++ toString (2 : Nat) ++ " failed: ") ++ e2),
         LogEntry.mk LogLevel.WARNING (("Attempt " ++ toString (3 : Nat) ++ " failed: ") ++ e3)]
        ++ [LogEntry.mk LogLevel.ERROR ("Email search failed: " ++ e3)]) := by
    simp [search_emails, hrw]
  refine ⟨by simp [hse], ?_, ?_, rfl, rfl, ?_⟩
  · rw [hse]
    simp [List.countP_cons, List.countP_nil]
  · intro rest
    simp [process_gmail_workflow_enum, hse]
  · intro rest
    simp [process_pdf_workflow_enum, list_drive_files]

/-- C7 amended witness at the concrete failing enumerations. -/
theorem C7_enumeration_failure_witness :
    (search_emails failingSearch).1 = [] ∧
    process_gmail_workflow_enum failingSearch
      (fun _ => { success := false, processed := 77 }) =
      { success := true, processed := 0 } := by
  have h := C7_enumeration_failure failingSearch "api down" "api down" "api down" "x"
    rfl rfl rfl
  exact ⟨h.1, h.2.2.1 _⟩

/-- C8 counterexample: the reversed first seen order is an admissible
set iteration order, and under it the reconciliation of two records with
fields a then b produces the new headers in the order b then a, not in
the first seen order a then b, so the code does not guarantee first seen
order for the newly added fields. -/
theorem C8_counterexample :
    SetOrderSpec revOrder ∧
    (reconcileHeaders revOrder [] demoRows).1 = ["b", "a"] ∧
    (reconcileHeaders firstSeen [] demoRows).1 = ["a", "b"] ∧
    (reconcileHeaders revOrder [] demoRows).1 ≠
      (reconcileHeaders firstSeen [] demoRows).1 :=
  ⟨revOrder_spec, by decide, by decide, by decide⟩

/-- C8 amended: for any two admissible set iteration orders the final
header lists are permutations of each other and both keep the existing
headers as an unchanged front segment, and reconciliation is a pure
function of its inputs, so under the one set order fixed by the running
interpreter process two invocations with identical existing headers and
identical new records produce identical final header lists; the order of
the newly added fields is the set iteration order of the union of field
names, not necessarily first seen order within the batch. -/
theorem C8_new_field_order (ord1 ord2 : SetOrder) (ex : List String) (rows : List RowRec)
    (h1 : SetOrderSpec ord1) (h2 : SetOrderSpec ord2) :
    (reconcileHeaders ord1 ex rows).1.Perm (reconcileHeaders ord2 ex rows).1 ∧
    (∃ t, (reconcileHeaders ord1 ex rows).1 = ex ++ t) ∧
    (ord1 = ord2 → reconcileHeaders ord1 ex rows = reconcileHeaders ord2 ex rows) := by
  have hperm : (ord1 (fieldPool rows)).Perm (ord2 (fieldPool rows)) :=
    setOrder_perm ord1 ord2 h1 h2 (fieldPool rows)
  refine ⟨?_, ?_, ?_⟩
  · cases ex with
    | nil => simpa [reconcileHeaders] using hperm
    | cons e0 etl =>
      have hA := addNewHeaders_eq_filter (ord1 (fieldPool rows)) (e0 :: etl)
        (h1 (fieldPool rows)).1
      have hB := addNewHeaders_eq_filter (ord2 (fieldPool rows)) (e0 :: etl)
        (h2 (fieldPool rows)).1
      have g1 : (reconcileHeaders ord1 (e0 :: etl) rows).1 =
          addNewHeaders (e0 :: etl) (ord1 (fieldPool rows)) := rfl
      have g2 : (reconcileHeaders ord2 (e0 :: etl) rows).1 =
          addNewHeaders (e0 :: etl) (ord2 (fieldPool rows)) := rfl
      rw [g1, g2, hA, hB]
      exact List.Perm.append_left _ (hperm.filter _)
  · cases ex with
    | nil => exact ⟨ord1 (fieldPool rows), by simp [reconcileHeaders]⟩
    | cons e0 etl =>
      obtain ⟨t, ht⟩ := addNewHeaders_extends (ord1 (fieldPool rows)) (e0 :: etl)
      exact ⟨t, by simp [reconcileHeaders, ht]⟩
  · intro h
    subst h
    rfl

/-- C8 amended witness at the two concrete admissible set orders. -/
theorem C8_new_field_order_witness :
    (reconcileHeaders firstSeen [] demoRows).1.Perm
      (reconcileHeaders revOrder [] demoRows).1 :=
  (C8_new_field_order firstSeen revOrder [] demoRows firstSeen_spec revOrder_spec).1

/-- C9 counterexample: during the in place rewrite of the state file the
truncated empty content is an observable intermediate state, and for a
non empty old state it is neither the old contents nor the fully formed
new contents, so a crash mid write does not leave the old or the new
file. -/
theorem C9_counterexample :
    "" ∈ fileStatesDuringSave "oldstate" (serialize_processed_state ["E1"] ["P1"]) ∧
    "" ≠ "oldstate" ∧
    "" ≠ serialize_processed_state ["E1"] ["P1"] := by decide

/-- C9 amended: _save_processed_state rewrites the file in place, so the
write starts from the old contents, passes through the truncated empty
state where a crash loses the old ledger, and a completed write ends
exactly at the new serialized contents; on a write failure the function
logs one ERROR entry and returns normally to its caller instead of
raising. -/
theorem C9_save_state (w : Except String Unit) (old neu : String) :
    (save_processed_state w).1 = Except.ok () ∧
    (∀ e, w = Except.error e → (save_processed_state w).2 =
      [LogEntry.mk LogLevel.ERROR ("Could not save processed state: " ++ e)]) ∧
    (fileStatesDuringSave old neu).headD "" = old ∧
    "" ∈ fileStatesDuringSave old neu ∧
    (fileStatesDuringSave old neu).getLast? = some neu := by
  refine ⟨?_, ?_, rfl, by simp [fileStatesDuringSave], rfl⟩
  · cases w with
    | ok v => rfl
    | error e => rfl
  · intro e he
    subst he
    rfl

/-- C9 amended witness at a concrete failing write. -/
theorem C9_save_state_witness :
    (save_processed_state (Except.error "disk full")).2 =
      [LogEntry.mk LogLevel.ERROR ("Could not save processed state: " ++ "disk full")] :=
  (C9_save_state (Except.error "disk full") "o" "n").2.1 "disk full" rfl

/-- C10: the header read of reconciliation covers only the range A1:Z1,
that is the first 26 columns, so a header row of at most 26 columns is
seen in full and reconciliation extends it in place, while every column
beyond the 26th is invisible to reconciliation; and the end column
letter chr(64 + n) computed by _update_headers denotes a single column
letter exactly for header lists of length 1 to 26, so the guarantee that
reconciliation never drops a column holds only under the precondition
that the sheet header has at most 26 columns. -/
theorem C10_column_window (hs : List String) (n : Nat) :
    (hs.length ≤ 26 → headersVisibleToReconciliation hs = hs) ∧
    (26 < hs.length → headersVisibleToReconciliation hs ≠ hs ∧ hs.drop 26 ≠ [] ∧
      (hs.Nodup → ∀ x ∈ hs.drop 26, x ∉ headersVisibleToReconciliation hs)) ∧
    (isColumnLetterCode (update_headers_end_col_code n) = true ↔ 1 ≤ n ∧ n ≤ 26) ∧
    (∀ (ord : SetOrder) (rows : List RowRec), hs.length ≤ 26 →
      ∃ t, (reconcileHeaders ord (headersVisibleToReconciliation hs) rows).1 = hs ++ t) := by
  refine ⟨?_, ?_, ?_, ?_⟩
  · intro hlen
    exact List.take_of_length_le hlen
  · intro hlen
    refine ⟨?_, ?_, ?_⟩
    · intro heq
      have hl : (hs.take 26).length = 26 := by
        rw [List.length_take]
        exact Nat.min_eq_left (Nat.le_of_lt hlen)
      have heq2 : hs.take 26 = hs := heq
      rw [heq2] at hl
      exact absurd hl (Nat.ne_of_lt hlen).symm
    · refine List.ne_nil_of_length_pos ?_
      rw [List.length_drop]
      omega
    · intro hnd x hx hxt
      have hsplit : hs.take 26 ++ hs.drop 26 = hs := List.take_append_drop 26 hs
      have hnd2 : (hs.take 26 ++ hs.drop 26).Nodup := by
        rw [hsplit]
        exact hnd
      rw [List.nodup_append] at hnd2
      exact absurd hx (hnd2.2.2 hxt)
  · simp only [isColumnLetterCode, update_headers_end_col_code, Bool.and_eq_true,
      decide_eq_true_eq]
    omega
  · intro ord rows hlen
    have hv : headersVisibleToReconciliation hs = hs := List.take_of_length_le hlen
    rw [hv]
    cases hs with
    | nil => exact ⟨ord (fieldPool rows), by simp [reconcileHeaders]⟩
    | cons a t =>
      obtain ⟨tt, htt⟩ := addNewHeaders_extends (ord (fieldPool rows)) (a :: t)
      exact ⟨tt, by simp [reconcileHeaders, htt]⟩

/-- C10 witness at a two column header, a 27 column header and the
boundary length 26. -/
theorem C10_column_window_witness :
    headersVisibleToReconciliation ["a", "b"] = ["a", "b"] ∧
    headersVisibleToReconciliation hs27 ≠ hs27 ∧
    (∀ x ∈ hs27.drop 26, x ∉ headersVisibleToReconciliation hs27) ∧
    (isColumnLetterCode (update_headers_end_col_code 26) = true ↔ 1 ≤ 26 ∧ 26 ≤ 26) ∧
    (∃ t, (reconcileHeaders firstSeen (headersVisibleToReconciliation ["a", "b"])
      demoRows).1 = ["a", "b"] ++ t) := by
  have h1 := C10_column_window ["a", "b"] 26
  have h2 := C10_column_window hs27 0
  exact ⟨h1.1 (by decide), (h2.2.1 (by decide)).1, (h2.2.1 (by decide)).2.2 (by decide),
    h1.2.2.1, h1.2.2.2 firstSeen demoRows (by decide)⟩
